import Mathlib

/-!
Verification development for the `gh_summarizer` pipeline.

Python strings are modelled as `List Char`; machine text operations
(`str.strip`, `in`, `str.replace`, `str.splitlines`, `list.index`,
`list[i] = v`) are translated into executable Lean functions below.
`difflib` (`SequenceMatcher`, `Differ`, `ndiff`) is translated faithfully
from the CPython standard library implementation, with the float ratio
arithmetic modelled by exact rationals.
-/

set_option autoImplicit false
set_option maxRecDepth 200000

deriving instance DecidableEq for Except

namespace GhSummarizer

/-- Convert a Lean string literal to the `List Char` model of Python strings. -/
def pyS (s : String) : List Char := s.data

/-- ASCII whitespace, as stripped by `str.strip()` on the ASCII inputs this
program manipulates. -/
def isPySpace (c : Char) : Bool :=
  c == ' ' || c == '\t' || c == '\n' || c == '\r' || c == '\x0b' || c == '\x0c'

/-- `s.strip()`: drop whitespace from both ends. -/
def pyStrip (s : List Char) : List Char :=
  ((s.dropWhile isPySpace).reverse.dropWhile isPySpace).reverse

/-- `s.startswith(pat)`: `pat` is a leading segment of `s`. -/
def beginsWith : List Char → List Char → Bool
  | _, [] => true
  | [], _ :: _ => false
  | c :: cs, p :: ps => c == p && beginsWith cs ps

/-- `pat in s`: Python substring containment. -/
def hasSub : List Char → List Char → Bool
  | s, pat =>
    beginsWith s pat ||
      (match s with
       | [] => false
       | _ :: cs => hasSub cs pat)

/-- Fuel-driven core of `str.replace`: scan left to right, replacing each
non-overlapping occurrence of `pat` by `rep`.  The fuel starts at the length
of the string and never runs out (each step consumes at least one character
when `pat` is non-empty; all patterns used by the program are non-empty). -/
def replaceGo (pat rep : List Char) : Nat → List Char → List Char
  | 0, s => s
  | _ + 1, [] => []
  | fuel + 1, c :: cs =>
    if !pat.isEmpty && beginsWith (c :: cs) pat then
      rep ++ replaceGo pat rep fuel (List.drop pat.length (c :: cs))
    else
      c :: replaceGo pat rep fuel cs

/-- `s.replace(pat, rep)` for a non-empty pattern. -/
def replaceAll (pat rep s : List Char) : List Char :=
  replaceGo pat rep s.length s

/-- `str.splitlines()` (no kept line endings), modelled on the line
boundaries the program can encounter: `\n`, `\r\n` and `\r`. -/
def splitPlainGo (cur : List Char) : List Char → List (List Char)
  | [] => if cur.isEmpty then [] else [cur.reverse]
  | '\r' :: '\n' :: rest => cur.reverse :: splitPlainGo [] rest
  | '\r' :: rest => cur.reverse :: splitPlainGo [] rest
  | '\n' :: rest => cur.reverse :: splitPlainGo [] rest
  | c :: rest => splitPlainGo (c :: cur) rest

/-- `str.splitlines()` without kept endings. -/
def splitLinesNoEnds (s : List Char) : List (List Char) := splitPlainGo [] s

/-- `str.splitlines(keepends=True)`, same line-boundary model. -/
def splitKeepGo (cur : List Char) : List Char → List (List Char)
  | [] => if cur.isEmpty then [] else [cur.reverse]
  | '\r' :: '\n' :: rest => (cur.reverse ++ ['\r', '\n']) :: splitKeepGo [] rest
  | '\r' :: rest => (cur.reverse ++ ['\r']) :: splitKeepGo [] rest
  | '\n' :: rest => (cur.reverse ++ ['\n']) :: splitKeepGo [] rest
  | c :: rest => splitKeepGo (c :: cur) rest

/-- `str.splitlines(keepends=True)`. -/
def splitKeepEnds (s : List Char) : List (List Char) := splitKeepGo [] s

/-! ## The summarization step (`summarize`, gh_summarizer.py lines 699-840) -/

/-- Result of one `gemini_client.models.generate_content` call:
`resp.text` is either `None` or a string. -/
inductive GenResp where
  | noText
  | text (s : List Char)
  deriving DecidableEq

/-- The exception taxonomy raised by `summarize`:
`LLMResponseError` (base, raised when `resp.text is None`),
`LLMResponseInappropriateError`, `LLMResponseInvalidError` and
`LLMResponseTooShortError`, each carrying the offending response text. -/
inductive SummErr where
  | llmError
  | inappropriate (s : List Char)
  | invalid (s : List Char)
  | tooShort (s : List Char)
  deriving DecidableEq

/-- The `"INAPPROPRIATE"` marker token. -/
def strInap : List Char := pyS "INAPPROPRIATE"

/-- The `"ERROR"` marker token. -/
def strErr : List Char := pyS "ERROR"

/-- `summarize(gemini_client, user_prompt, ...)` with the generation service
modelled as an oracle `g : prompt → attempt index → response`.  `k` is the
index of the next generation attempt (0 on entry), `budget` is
`max_retries`.  Mirrors the source: a `None` text raises `LLMResponseError`;
an `INAPPROPRIATE` marker raises `LLMResponseInappropriateError`; an `ERROR`
marker consumes one retry (same prompt) or raises `LLMResponseInvalidError`
when the budget is exhausted; afterwards the text is stripped, texts of
length `<= 200` raise `LLMResponseTooShortError`, and newlines are replaced
by spaces in the returned summary. -/
def summarize (g : List Char → Nat → GenResp) (p : List Char) :
    Nat → Nat → Except SummErr (List Char)
  | k, budget =>
    match g p k with
    | .noText => .error .llmError
    | .text t0 =>
      if hasSub t0 strInap then .error (.inappropriate t0)
      else
        match (if hasSub t0 strErr then
                 match budget with
                 | 0 => Except.error (SummErr.invalid t0)
                 | b + 1 => summarize g p (k + 1) b
               else Except.ok t0) with
        | .error e => .error e
        | .ok t1 =>
          let t2 := pyStrip t1
          if t2.length ≤ 200 then .error (.tooShort t2)
          else .ok (replaceAll (pyS "\n") (pyS " ") t2)

/-! ## Random Wikipedia URL selection (`get_random_wikipedia_url`, lines 647-696) -/

/-- `get_random_wikipedia_url` with the file contents passed in and
`secrets.choice` modelled by an arbitrary adversarial index `pick`
(reduced modulo the list length, so every entry is reachable); on an empty
sequence `secrets.choice` raises `IndexError`, modelled as `.error ()`. -/
def getRandomWikipediaUrl (contents : List Char) (pick : Nat) :
    Except Unit (List Char) :=
  let urls := splitLinesNoEnds contents
  match urls with
  | [] => .error ()
  | _ :: _ => .ok (pyStrip (urls.getD (pick % urls.length) []))

/-! ## `difflib.SequenceMatcher`, translated from the CPython standard library

The patch step of `generate_readme` iterates over `difflib.ndiff(...)`, so the
line diff machinery is part of the code under verification.  Float ratios are
modelled by exact rationals (the comparisons the program exercises are far
from the representation boundary). -/

section SeqMatcher

variable {α : Type} [DecidableEq α] [Inhabited α]

/-- Ascending positions of `x` in a list, starting at offset `k`
(the per-element index lists stored in `b2j`). -/
def posList (x : α) : List α → Nat → List Nat
  | [], _ => []
  | y :: ys, k =>
    if y == x then k :: posList x ys (k + 1) else posList x ys (k + 1)

/-- `self.b2j` after `__chain_b`: positions of `x` in `b`, with junk elements
and (when `autojunk` and `len(b) >= 200`) popular elements removed. -/
def b2jOf (junk : α → Bool) (autojunk : Bool) (b : List α) (x : α) : List Nat :=
  if junk x then []
  else if autojunk && decide (200 ≤ b.length) &&
      decide (b.length / 100 + 1 < List.count x b) then []
  else posList x b 0

/-- The double loop of `find_longest_match`: for each `i` in `[alo, ahi)` walk
the (ascending) position list of `a[i]` in `b2j` restricted to `[blo, bhi)`,
chaining `j2len` rows exactly as the dict-based original does. -/
def flmCore (b2j : α → List Nat) (a : List α) (alo ahi blo bhi : Nat) :
    Nat × Nat × Nat :=
  ((List.range' alo (ahi - alo)).foldl
    (fun (st : (Nat → Nat) × (Nat × Nat × Nat)) i =>
      let j2len := st.1
      let js := (b2j (a.getD i default)).filter
        (fun j => decide (blo ≤ j) && decide (j < bhi))
      js.foldl
        (fun (st2 : (Nat → Nat) × (Nat × Nat × Nat)) j =>
          let k := (if j == 0 then 0 else j2len (j - 1)) + 1
          let nj2 : Nat → Nat := fun j2 => if j2 == j then k else st2.1 j2
          let best2 :=
            if st2.2.2.2 < k then (i + 1 - k, j + 1 - k, k) else st2.2
          (nj2, best2))
        ((fun _ => 0), st.2))
    ((fun _ => 0), (alo, blo, 0))).2

/-- One of the backward extension `while` loops of `find_longest_match`
(`wantJunk` selects the junk-free or the junk-only variant).  The fuel starts
at `besti` and is an upper bound on the number of iterations, since `besti`
decreases by one per step and stays above `alo`. -/
def extendLow (a b : List α) (junk : α → Bool) (wantJunk : Bool)
    (alo blo : Nat) : Nat → Nat × Nat × Nat → Nat × Nat × Nat
  | 0, st => st
  | fuel + 1, (bi, bj, bs) =>
    if decide (alo < bi) && decide (blo < bj) &&
        (junk (b.getD (bj - 1) default) == wantJunk) &&
        (a.getD (bi - 1) default == b.getD (bj - 1) default) then
      extendLow a b junk wantJunk alo blo fuel (bi - 1, bj - 1, bs + 1)
    else (bi, bj, bs)

/-- One of the forward extension `while` loops of `find_longest_match`.  The
fuel `ahi` bounds the iteration count (`besti + bestsize` grows and stays
below `ahi`). -/
def extendHigh (a b : List α) (junk : α → Bool) (wantJunk : Bool)
    (ahi bhi : Nat) : Nat → Nat × Nat × Nat → Nat × Nat × Nat
  | 0, st => st
  | fuel + 1, (bi, bj, bs) =>
    if decide (bi + bs < ahi) && decide (bj + bs < bhi) &&
        (junk (b.getD (bj + bs) default) == wantJunk) &&
        (a.getD (bi + bs) default == b.getD (bj + bs) default) then
      extendHigh a b junk wantJunk ahi bhi fuel (bi, bj, bs + 1)
    else (bi, bj, bs)

/-- `SequenceMatcher.find_longest_match(alo, ahi, blo, bhi)`. -/
def findLongestMatch (junk : α → Bool) (autojunk : Bool) (a b : List α)
    (alo ahi blo bhi : Nat) : Nat × Nat × Nat :=
  let core := flmCore (b2jOf junk autojunk b) a alo ahi blo bhi
  let e1 := extendLow a b junk false alo blo core.1 core
  let e2 := extendHigh a b junk false ahi bhi ahi e1
  let e3 := extendLow a b junk true alo blo e2.1 e2
  extendHigh a b junk true ahi bhi ahi e3

/-- The divide-and-conquer of `get_matching_blocks` (the queue in the source
is just a stack-based rendering of this recursion; the result is sorted
afterwards either way).  Fuel bounds the recursion depth: every recursive
call is on a strictly smaller index range, so `(ahi - alo) + (bhi - blo) + 1`
at the top call never runs out. -/
def mbGo (junk : α → Bool) (autojunk : Bool) (a b : List α) :
    Nat → Nat → Nat → Nat → Nat → List (Nat × Nat × Nat)
  | 0, _, _, _, _ => []
  | fuel + 1, alo, ahi, blo, bhi =>
    let m := findLongestMatch junk autojunk a b alo ahi blo bhi
    let i := m.1
    let j := m.2.1
    let k := m.2.2
    if k == 0 then []
    else
      (if decide (alo < i) && decide (blo < j) then
        mbGo junk autojunk a b fuel alo i blo j
      else []) ++
      [(i, j, k)] ++
      (if decide (i + k < ahi) && decide (j + k < bhi) then
        mbGo junk autojunk a b fuel (i + k) ahi (j + k) bhi
      else [])

/-- Lexicographic order on match triples, as used by `matching_blocks.sort()`. -/
def blkLeB (x y : Nat × Nat × Nat) : Bool :=
  decide (x.1 < y.1) ||
    (x.1 == y.1 && (decide (x.2.1 < y.2.1) ||
      (x.2.1 == y.2.1 && decide (x.2.2 ≤ y.2.2))))

/-- Insertion into a sorted block list. -/
def insBlk (x : Nat × Nat × Nat) :
    List (Nat × Nat × Nat) → List (Nat × Nat × Nat)
  | [] => [x]
  | y :: ys => if blkLeB x y then x :: y :: ys else y :: insBlk x ys

/-- `matching_blocks.sort()` (insertion sort; the triples are distinct). -/
def sortBlks (l : List (Nat × Nat × Nat)) : List (Nat × Nat × Nat) :=
  l.foldr insBlk []

/-- The adjacent-block collapsing loop of `get_matching_blocks`, starting
from the dummy `(0, 0, 0)` accumulator. -/
def mergeAdjGo : Nat × Nat × Nat → List (Nat × Nat × Nat) → List (Nat × Nat × Nat)
  | (i1, j1, k1), [] => if k1 == 0 then [] else [(i1, j1, k1)]
  | (i1, j1, k1), (i2, j2, k2) :: rest =>
    if i1 + k1 == i2 && j1 + k1 == j2 then mergeAdjGo (i1, j1, k1 + k2) rest
    else
      (if k1 == 0 then [] else [(i1, j1, k1)]) ++ mergeAdjGo (i2, j2, k2) rest

/-- `SequenceMatcher.get_matching_blocks()`: recursively collected blocks,
sorted, adjacent blocks collapsed, terminated by the `(la, lb, 0)` sentinel. -/
def matchingBlocks (junk : α → Bool) (autojunk : Bool) (a b : List α) :
    List (Nat × Nat × Nat) :=
  let la := a.length
  let lb := b.length
  mergeAdjGo (0, 0, 0)
    (sortBlks (mbGo junk autojunk a b (la + lb + 1) 0 la 0 lb)) ++ [(la, lb, 0)]

/-- Opcode tags of `get_opcodes`. -/
inductive OpTag where
  | replace
  | delete
  | insert
  | equal
  deriving DecidableEq

/-- The opcode assembly loop of `get_opcodes`. -/
def opGo : Nat → Nat → List (Nat × Nat × Nat) →
    List (OpTag × Nat × Nat × Nat × Nat)
  | _, _, [] => []
  | i, j, (ai, bj, size) :: rest =>
    (if decide (i < ai) && decide (j < bj) then [(OpTag.replace, i, ai, j, bj)]
     else if decide (i < ai) then [(OpTag.delete, i, ai, j, bj)]
     else if decide (j < bj) then [(OpTag.insert, i, ai, j, bj)]
     else []) ++
    (if size == 0 then [] else [(OpTag.equal, ai, ai + size, bj, bj + size)]) ++
    opGo (ai + size) (bj + size) rest

/-- `SequenceMatcher.get_opcodes()`. -/
def getOpcodes (junk : α → Bool) (autojunk : Bool) (a b : List α) :
    List (OpTag × Nat × Nat × Nat × Nat) :=
  opGo 0 0 (matchingBlocks junk autojunk a b)

/-- `_calculate_ratio(matches, length)`.  Floats are modelled as exact
rationals, represented as numerator/denominator pairs (every ratio in the
program is `2*M/T` with `T > 0`, or `1`). -/
def calcRatioVal (mcount length : Nat) : Nat × Nat :=
  if length == 0 then (1, 1) else (2 * mcount, length)

/-- Exact comparison `x < y` of two nonnegative rationals given as
numerator/denominator pairs with positive denominators. -/
def ratLt (x y : Nat × Nat) : Bool := decide (x.1 * y.2 < y.1 * x.2)

/-- `SequenceMatcher.ratio()`. -/
def ratioFullV (junk : α → Bool) (autojunk : Bool) (a b : List α) : Nat × Nat :=
  calcRatioVal
    ((matchingBlocks junk autojunk a b).foldl (fun acc blk => acc + blk.2.2) 0)
    (a.length + b.length)

/-- The `avail` loop of `quick_ratio`. -/
def quickCore (bcount : α → Nat) : List α → (α → Option Int) → Nat → Nat
  | [], _, m => m
  | x :: rest, avail, m =>
    let numb : Int := match avail x with
      | some v => v
      | none => (bcount x : Int)
    quickCore bcount rest
      (fun y => if y == x then some (numb - 1) else avail y)
      (if 0 < numb then m + 1 else m)

/-- `SequenceMatcher.quick_ratio()`. -/
def quickRatioV (a b : List α) : Nat × Nat :=
  calcRatioVal (quickCore (fun x => List.count x b) a (fun _ => none) 0)
    (a.length + b.length)

/-- `SequenceMatcher.real_quick_ratio()`. -/
def realQuickV (a b : List α) : Nat × Nat :=
  calcRatioVal (min a.length b.length) (a.length + b.length)

end SeqMatcher

/-! ## `difflib.Differ` / `difflib.ndiff`

`ndiff(a, b)` is `Differ(linejunk=None, charjunk=IS_CHARACTER_JUNK).compare(a, b)`.
Lines are `List Char`; a delta line is the tag character, a space, then the
line (`'%s %s' % (tag, x[i])`).  Indexing `x[i]` is written as the
one-element slice `x[i:i+1]`; the index is always in range in the source. -/

/-- `IS_CHARACTER_JUNK`: blank or tab. -/
def charJunk (c : Char) : Bool := c == ' ' || c == '\t'

/-- `Differ._dump(tag, x, lo, hi)`: each line of the slice prefixed with the
tag and a space. -/
def dumpTag (tag : Char) (x : List (List Char)) (lo hi : Nat) :
    List (List Char) :=
  ((x.drop lo).take (hi - lo)).map fun line => tag :: ' ' :: line

/-- `Differ._plain_replace`. -/
def plainReplace (a b : List (List Char)) (alo ahi blo bhi : Nat) :
    List (List Char) :=
  if bhi - blo < ahi - alo then dumpTag '+' b blo bhi ++ dumpTag '-' a alo ahi
  else dumpTag '-' a alo ahi ++ dumpTag '+' b blo bhi

/-- The intraline tag strings built in `_fancy_replace` from the char-level
opcodes of the synch pair. -/
def intralineTags (aelt belt : List Char) : List Char × List Char :=
  (getOpcodes charJunk true aelt belt).foldl
    (fun (st : List Char × List Char) op =>
      match op with
      | (.replace, a1, a2, b1, b2) =>
        (st.1 ++ List.replicate (a2 - a1) '^',
         st.2 ++ List.replicate (b2 - b1) '^')
      | (.delete, a1, a2, _, _) => (st.1 ++ List.replicate (a2 - a1) '-', st.2)
      | (.insert, _, _, b1, b2) => (st.1, st.2 ++ List.replicate (b2 - b1) '+')
      | (.equal, a1, a2, b1, b2) =>
        (st.1 ++ List.replicate (a2 - a1) ' ',
         st.2 ++ List.replicate (b2 - b1) ' '))
    ([], [])

/-- `_keep_original_ws(s, tag_s)` (ASCII whitespace model of `c.isspace()`). -/
def keepOriginalWs (s tags : List Char) : List Char :=
  (s.zip tags).map fun ct => if ct.2 == ' ' && isPySpace ct.1 then ct.1 else ct.2

/-- `str.rstrip()` on a tag string. -/
def rstripWs (l : List Char) : List Char :=
  (l.reverse.dropWhile isPySpace).reverse

/-- `Differ._qformat` applied to the synch pair `a[bi]`, `b[bj]`:
a `- ` line, an optional `? ` tag line, a `+ ` line, an optional `? ` tag
line. -/
def qformatAt (a b : List (List Char)) (bi bj : Nat) : List (List Char) :=
  let aelt := a.getD bi default
  let belt := b.getD bj default
  let tags := intralineTags aelt belt
  let at2 := rstripWs (keepOriginalWs aelt tags.1)
  let bt2 := rstripWs (keepOriginalWs belt tags.2)
  dumpTag '-' a bi (bi + 1) ++
    (if at2.isEmpty then [] else ['?' :: ' ' :: (at2 ++ ['\n'])]) ++
    dumpTag '+' b bj (bj + 1) ++
    (if bt2.isEmpty then [] else ['?' :: ' ' :: (bt2 ++ ['\n'])])

/-- The candidate pairs scanned by `_fancy_replace`: `j` over `[blo, bhi)`
outer, `i` over `[alo, ahi)` inner. -/
def pairList (alo ahi blo bhi : Nat) : List (Nat × Nat) :=
  (List.range' blo (bhi - blo)).flatMap fun j =>
    (List.range' alo (ahi - alo)).map fun i => (j, i)

/-- One step of the `_fancy_replace` scan.  The state is the first identical
pair (`eqi, eqj` — stored as `(i, j)`) and the best non-identical candidate
with its ratio (`best_i, best_j, best_ratio`; the initial `best_ratio` of
`0.74` is represented by `none`). -/
def scanStep (a b : List (List Char))
    (st : Option (Nat × Nat) × Option (Nat × Nat × (Nat × Nat)))
    (p : Nat × Nat) :
    Option (Nat × Nat) × Option (Nat × Nat × (Nat × Nat)) :=
  let j := p.1
  let i := p.2
  let bj := b.getD j default
  let ai := a.getD i default
  if ai == bj then
    match st.1 with
    | none => (some (i, j), st.2)
    | some _ => st
  else
    let cur : Nat × Nat := match st.2 with
      | some (_, _, r) => r
      | none => (37, 50)
    if ratLt cur (realQuickV ai bj) && ratLt cur (quickRatioV ai bj) &&
        ratLt cur (ratioFullV charJunk true ai bj) then
      (st.1, some (i, j, ratioFullV charJunk true ai bj))
    else st

/-- The synch-point decision of `_fancy_replace`: if the best ratio is below
the cutoff `0.75`, fall back to the identical pair (flag `true`) or to
`_plain_replace` (`none`); otherwise use the best pair (flag `false`). -/
def chooseSync (st : Option (Nat × Nat) × Option (Nat × Nat × (Nat × Nat))) :
    Option (Nat × Nat × Bool) :=
  match st.2 with
  | some (bi, bj, r) =>
    if ratLt r (3, 4) then
      match st.1 with
      | some (ei, ej) => some (ei, ej, true)
      | none => none
    else some (bi, bj, false)
  | none =>
    match st.1 with
    | some (ei, ej) => some (ei, ej, true)
    | none => none

/-- `Differ._fancy_replace` with `_fancy_helper` inlined at the two
recursion sites.  Fuel bounds the recursion depth; every recursive call is
on a strictly smaller index range, so `(ahi - alo) + (bhi - blo) + 1` at the
top call never runs out. -/
def fancyReplace (a b : List (List Char)) :
    Nat → Nat → Nat → Nat → Nat → List (List Char)
  | 0, _, _, _, _ => []
  | fuel + 1, alo, ahi, blo, bhi =>
    let st := (pairList alo ahi blo bhi).foldl (scanStep a b) (none, none)
    match chooseSync st with
    | none => plainReplace a b alo ahi blo bhi
    | some (bi, bj, isEq) =>
      (if alo < bi then
        (if blo < bj then fancyReplace a b fuel alo bi blo bj
         else dumpTag '-' a alo bi)
      else if blo < bj then dumpTag '+' b blo bj
      else []) ++
      (if isEq then dumpTag ' ' a bi (bi + 1) else qformatAt a b bi bj) ++
      (if bi + 1 < ahi then
        (if bj + 1 < bhi then fancyReplace a b fuel (bi + 1) ahi (bj + 1) bhi
         else dumpTag '-' a (bi + 1) ahi)
      else if bj + 1 < bhi then dumpTag '+' b (bj + 1) bhi
      else [])

/-- `Differ(linejunk=None, charjunk=IS_CHARACTER_JUNK).compare(a, b)`:
dispatch on the line-level opcodes. -/
def compareLines (a b : List (List Char)) : List (List Char) :=
  (getOpcodes (fun _ => false) true a b).foldl
    (fun acc op =>
      acc ++
        match op with
        | (.replace, alo, ahi, blo, bhi) =>
          fancyReplace a b ((ahi - alo) + (bhi - blo) + 1) alo ahi blo bhi
        | (.delete, alo, ahi, _, _) => dumpTag '-' a alo ahi
        | (.insert, _, _, blo, bhi) => dumpTag '+' b blo bhi
        | (.equal, alo, ahi, _, _) => dumpTag ' ' a alo ahi)
    []

/-- `difflib.ndiff(a, b)`. -/
def ndiffL (a b : List (List Char)) : List (List Char) := compareLines a b

/-! ## Data records and template rendering (`generate_readme`, lines 843-1025) -/

/-- `SCPData`: frozen dataclass with fields `title`, `title_alt`, `url`,
`summary`. -/
structure SCPData where
  title : List Char
  titleAlt : List Char
  url : List Char
  summary : List Char
  deriving DecidableEq

/-- `WikipediaData`: frozen dataclass with fields `title`, `url`, `summary`. -/
structure WikipediaData where
  title : List Char
  url : List Char
  summary : List Char
  deriving DecidableEq

/-- The `{{SCP_URL}}` placeholder. -/
def phScpUrl : List Char := pyS "\x7b\x7bSCP_URL\x7d\x7d"

/-- The `{{SCP_TITLE}}` placeholder. -/
def phScpTitle : List Char := pyS "\x7b\x7bSCP_TITLE\x7d\x7d"

/-- The `{{SCP_TITLE_ALT}}` placeholder. -/
def phScpTitleAlt : List Char := pyS "\x7b\x7bSCP_TITLE_ALT\x7d\x7d"

/-- The `{{SCP_SUMMARY}}` placeholder. -/
def phScpSummary : List Char := pyS "\x7b\x7bSCP_SUMMARY\x7d\x7d"

/-- The `{{WIKIPEDIA_URL}}` placeholder. -/
def phWikiUrl : List Char := pyS "\x7b\x7bWIKIPEDIA_URL\x7d\x7d"

/-- The `{{WIKIPEDIA_TITLE}}` placeholder. -/
def phWikiTitle : List Char := pyS "\x7b\x7bWIKIPEDIA_TITLE\x7d\x7d"

/-- The `{{WIKIPEDIA_SUMMARY}}` placeholder. -/
def phWikiSummary : List Char := pyS "\x7b\x7bWIKIPEDIA_SUMMARY\x7d\x7d"

/-- The placeholder substitution chain of `generate_readme` building
`readme_inter`: the four SCP `str.replace` calls (when `scp_data` is
present), then the three Wikipedia `str.replace` calls (when
`wikipedia_data` is present), in source order. -/
def renderInter (template : List Char) (scp : Option SCPData)
    (wiki : Option WikipediaData) : List Char :=
  let r1 := match scp with
    | none => template
    | some s =>
      replaceAll phScpSummary s.summary
        (replaceAll phScpTitleAlt s.titleAlt
          (replaceAll phScpTitle s.title
            (replaceAll phScpUrl s.url template)))
  match wiki with
  | none => r1
  | some w =>
    replaceAll phWikiSummary w.summary
      (replaceAll phWikiTitle w.title
        (replaceAll phWikiUrl w.url r1))

/-- The `ValueError` message raised by the patch loop (the f-string at
gh_summarizer.py lines 1005-1010); it names the README path and the
template path. -/
def mismatchMsg (readmeFp templateFp : List Char) : List Char :=
  pyS "Could not update given README file (" ++ readmeFp ++
    pyS ")! This could be because line counts differ between the given README file (" ++
    readmeFp ++ pyS ") and template README file (" ++ templateFp ++
    pyS ") or given summaries include newlines."

/-- The `"+ "` delta-line marker. -/
def plusPre : List Char := pyS "+ "

/-- `list.index(v)`: index of the first occurrence, `none` when absent
(Python raises `ValueError` there). -/
def pyIndex {α : Type} [DecidableEq α] (v : α) : List α → Option Nat
  | [] => none
  | y :: ys => if y == v then some 0 else (pyIndex v ys).map (· + 1)

/-- The `for line in difflib.ndiff(...)` loop of `generate_readme`: each
delta line starting with `"+ "` is stripped of the marker, located in the
intermediate rendering with `list.index` (first occurrence; `ValueError`
when absent), and assigned into the current README lines at that index
(`IndexError` when out of range); both exceptions are converted to the
structural-mismatch `ValueError`. -/
def patchLoop (readmeFp templateFp : List Char)
    (interLines : List (List Char)) :
    List (List Char) → List (List Char) →
    Except (List Char) (List (List Char))
  | dLines, [] => .ok dLines
  | dLines, l :: rest =>
    if beginsWith l plusPre then
      let changed := l.drop 2
      match pyIndex changed interLines with
      | some idx =>
        if idx < dLines.length then
          patchLoop readmeFp templateFp interLines (dLines.set idx changed) rest
        else .error (mismatchMsg readmeFp templateFp)
      | none => .error (mismatchMsg readmeFp templateFp)
    else patchLoop readmeFp templateFp interLines dLines rest

/-- The patch step of `generate_readme` (lines 977-1014): split the current
README, the template and the intermediate rendering into lines (endings
kept), run the `ndiff` loop, and join the updated lines. -/
def patchStep (readmeFp templateFp templateText interText docText : List Char) :
    Except (List Char) (List Char) :=
  let dL := splitKeepEnds docText
  let tL := splitKeepEnds templateText
  let iL := splitKeepEnds interText
  match patchLoop readmeFp templateFp iL dL (ndiffL tL iL) with
  | .error e => .error e
  | .ok out => .ok out.flatten

/-- `generate_readme(scp_data, wikipedia_data, readme_fp, readme_template_fp)`
with the file system made explicit: `readmeDoc` is the content read from
`readme_fp` when that path is given, and the second component of the result
is what gets written back to `readme_fp` (`none` when nothing is written:
no output path, the no-data early return, or the abort on a patch error). -/
def generateReadme (scp : Option SCPData) (wiki : Option WikipediaData)
    (readmeFp : Option (List Char)) (readmeDoc : List Char)
    (templateFp templateText : List Char) :
    Except (List Char) (List Char) × Option (List Char) :=
  match scp, wiki with
  | none, none =>
    match readmeFp with
    | some _ => (.ok readmeDoc, none)
    | none => (.ok templateText, none)
  | _, _ =>
    let inter := renderInter templateText scp wiki
    match readmeFp with
    | none => (.ok inter, none)
    | some fp =>
      match patchStep fp templateFp templateText inter readmeDoc with
      | .error e => (.error e, none)
      | .ok txt => (.ok txt, some txt)

/-- The indices written by the patch loop: for each `"+ "` delta line, the
index of its first occurrence in the intermediate rendering's lines. -/
def touchedIdx (interLines : List (List Char)) (diff : List (List Char)) :
    List Nat :=
  diff.filterMap fun l =>
    if beginsWith l plusPre then pyIndex (l.drop 2) interLines else none

/-- The line indices of the current README targeted by the patch step: for
each `"+ "` delta line of the template/rendering diff, the index of its
first occurrence in the intermediate rendering. -/
def patchTargets (templateText interText : List Char) : List Nat :=
  touchedIdx (splitKeepEnds interText)
    (ndiffL (splitKeepEnds templateText) (splitKeepEnds interText))

/-- A delta line on which the patch loop raises: it is a `"+ "` line whose
text is absent from the intermediate lines (`ValueError` from `list.index`)
or whose first-occurrence index is outside the current README's line range
(`IndexError` from the assignment). -/
def patchBad (interLines : List (List Char)) (dlen : Nat)
    (l : List Char) : Bool :=
  beginsWith l plusPre &&
    (match pyIndex (l.drop 2) interLines with
     | none => true
     | some i => decide (dlen ≤ i))

/-! ## The orchestration loops of `_main` (lines 1305-1402)

External collaborators are oracles indexed by loop iteration: the SCP fetch
(`get_random_scp`, whose failures — `SCPResponseInvalidError` after its own
retries, or any other exception — are both caught by the loop), the
Wikipedia URL selection (whose failures are *not* caught: the call at line
1362 sits outside any `try` block), and the generation service (prompt and
per-`summarize` attempt index).  The prompt construction
`user_prompt.format(...)` is an opaque function `up` of the candidate URL. -/

/-- The page record extracted from the `get_random_scp` GraphQL response:
`wikidotInfo.title`, `alternateTitles` (list of titles) and `url`. -/
structure ScpPage where
  title : List Char
  altTitles : List (List Char)
  url : List Char
  deriving DecidableEq

/-- Outcome of the SCP channel loop: still running (fuel exhausted in the
model), or finished with `scp_data` (`none` after a `break`). -/
inductive SLRes where
  | running
  | res (d : Option SCPData)
  deriving DecidableEq

/-- Outcome of the Wikipedia channel loop: still running, aborted by an
uncaught sourcing exception, or finished with `wikipedia_data`. -/
inductive WLRes where
  | running
  | raised
  | res (d : Option WikipediaData)
  deriving DecidableEq

/-- Hex digit value, for `urllib.parse.unquote` percent-escapes. -/
def hexDigit (c : Char) : Option Nat :=
  let n := c.toNat
  if 48 ≤ n && n ≤ 57 then some (n - 48)
  else if 97 ≤ n && n ≤ 102 then some (n - 87)
  else if 65 ≤ n && n ≤ 70 then some (n - 55)
  else none

/-- `urllib.parse.unquote`, modelled for single-byte (ASCII) escapes, which
is what unescaped-or-ASCII-escaped Wikipedia URLs produce; malformed `%` is
passed through, as in the original. -/
def unquoteGo : List Char → List Char
  | [] => []
  | '%' :: a :: b :: rest =>
    match hexDigit a, hexDigit b with
    | some ha, some hb => Char.ofNat (16 * ha + hb) :: unquoteGo rest
    | _, _ => '%' :: unquoteGo (a :: b :: rest)
  | c :: rest => c :: unquoteGo rest

/-- `str.split(sep)` for a single-character separator (always non-empty). -/
def splitOnChar (sep : Char) : List Char → List (List Char) :=
  go []
where
  go (cur : List Char) : List Char → List (List Char)
    | [] => [cur.reverse]
    | c :: rest =>
      if c == sep then cur.reverse :: go [] rest else go (c :: cur) rest

/-- The Wikipedia title derivation at line 1388:
`uparse.unquote(wikipedia_url.split("/")[-1]).replace("_", " ")`. -/
def wikiTitleOf (url : List Char) : List Char :=
  replaceAll (pyS "_") (pyS " ")
    (unquoteGo ((splitOnChar '/' url).getLastD []))

/-- The SCP article processing loop (lines 1308-1355).  `src i` is the
outcome of the `get_random_scp` call of iteration `i` (`.error` covers both
`SCPResponseInvalidError` and the catch-all `except Exception`, each of
which `break`s); `gens i` is the generation oracle used by `summarize` in
iteration `i`; `up` builds the prompt from the candidate URL.  Content
quality rejections `continue` with a new candidate; invalid/base LLM errors
`break`; success builds `SCPData` (alternate title: first entry or empty). -/
def scpLoop (src : Nat → Except Unit ScpPage)
    (gens : Nat → List Char → Nat → GenResp) (up : List Char → List Char)
    (budget : Nat) : Nat → Nat → SLRes
  | _, 0 => .running
  | iter, fuel + 1 =>
    match src iter with
    | .error _ => .res none
    | .ok page =>
      match summarize (gens iter) (up page.url) 0 budget with
      | .ok s => .res (some ⟨page.title, page.altTitles.headD [], page.url, s⟩)
      | .error (.inappropriate _) => scpLoop src gens up budget (iter + 1) fuel
      | .error (.tooShort _) => scpLoop src gens up budget (iter + 1) fuel
      | .error (.invalid _) => .res none
      | .error .llmError => .res none

/-- The Wikipedia article processing loop (lines 1359-1391).  The sourcing
call `get_random_wikipedia_url` is *outside* any `try` block, so a sourcing
failure propagates out of `_main` (`.raised`).  Quality rejections
`continue`; invalid/base LLM errors `break`; success builds
`WikipediaData`. -/
def wikiLoop (src : Nat → Except Unit (List Char))
    (gens : Nat → List Char → Nat → GenResp) (up : List Char → List Char)
    (budget : Nat) : Nat → Nat → WLRes
  | _, 0 => .running
  | iter, fuel + 1 =>
    match src iter with
    | .error _ => .raised
    | .ok url =>
      match summarize (gens iter) (up url) 0 budget with
      | .ok s => .res (some ⟨wikiTitleOf url, url, s⟩)
      | .error (.inappropriate _) => wikiLoop src gens up budget (iter + 1) fuel
      | .error (.tooShort _) => wikiLoop src gens up budget (iter + 1) fuel
      | .error (.invalid _) => .res none
      | .error .llmError => .res none

/-- Overall result of `_main` after argument validation: still running
(model fuel exhausted), aborted by the uncaught Wikipedia sourcing
exception, or completed, carrying the `generate_readme` outcome and what
was written to the README file. -/
inductive PipeRes where
  | running
  | raised
  | completed (r : Except (List Char) (List Char)) (written : Option (List Char))
  deriving DecidableEq

/-- `_main` after configuration validation: run the SCP loop, then the
Wikipedia loop, then `generate_readme` on whatever the channels produced. -/
def pipeline (scpSrc : Nat → Except Unit ScpPage)
    (wikiSrc : Nat → Except Unit (List Char))
    (gensS gensW : Nat → List Char → Nat → GenResp)
    (upS upW : List Char → List Char) (budget : Nat)
    (readmeFp : Option (List Char)) (readmeDoc : List Char)
    (templateFp templateText : List Char) (fuel1 fuel2 : Nat) : PipeRes :=
  match scpLoop scpSrc gensS upS budget 0 fuel1 with
  | .running => .running
  | .res scpD =>
    match wikiLoop wikiSrc gensW upW budget 0 fuel2 with
    | .running => .running
    | .raised => .raised
    | .res wikiD =>
      let rw := generateReadme scpD wikiD readmeFp readmeDoc templateFp templateText
      .completed rw.1 rw.2

/-- Whether iteration `i` of the Wikipedia loop goes around again (sourcing
succeeded and the summary was rejected for content quality). -/
def wikiKeepsGoing (src : Nat → Except Unit (List Char))
    (gens : Nat → List Char → Nat → GenResp) (up : List Char → List Char)
    (budget i : Nat) : Bool :=
  match src i with
  | .error _ => false
  | .ok url =>
    match summarize (gens i) (up url) 0 budget with
    | .error (.inappropriate _) => true
    | .error (.tooShort _) => true
    | _ => false

/-- Whether iteration `i` of the SCP loop goes around again. -/
def scpKeepsGoing (src : Nat → Except Unit ScpPage)
    (gens : Nat → List Char → Nat → GenResp) (up : List Char → List Char)
    (budget i : Nat) : Bool :=
  match src i with
  | .error _ => false
  | .ok page =>
    match summarize (gens i) (up page.url) 0 budget with
    | .error (.inappropriate _) => true
    | .error (.tooShort _) => true
    | _ => false

/-- A Wikipedia sourcing oracle that always succeeds. -/
def c9Src : Nat → Except Unit (List Char) := fun _ => .ok (pyS "u")

/-- A generation oracle whose every response is marker-free but only two
characters long: every candidate is rejected as too short. -/
def c9Gens : Nat → List Char → Nat → GenResp := fun _ _ _ => .text (pyS "OK")

/-- Nontermination of the Wikipedia loop under `c9Src`/`c9Gens`: however
much fuel the model grants, the loop is still running (the source's `while`
loop never exits: every iteration `continue`s with a fresh candidate). -/
def c9NeverDone : Prop :=
  ∀ fuel, wikiLoop c9Src c9Gens id 3 0 fuel = .running

/-- An SCP sourcing oracle that always succeeds with a fixed page. -/
def c7ScpSrc : Nat → Except Unit ScpPage :=
  fun _ => .ok ⟨pyS "SCP-001", [pyS "Alt"], pyS "scp-url"⟩

/-- A generation oracle that always returns an acceptable 201-character
summary. -/
def c7Gens : Nat → List Char → Nat → GenResp :=
  fun _ _ _ => .text (List.replicate 201 'a')

/-- A Wikipedia sourcing oracle that always fails (e.g. a missing or empty
URL-list file). -/
def c7WikiSrc : Nat → Except Unit (List Char) := fun _ => .error ()

/-! ## Helper lemmas -/

theorem beginsWith_refl (l : List Char) : beginsWith l l = true := by
  induction l with
  | nil => rfl
  | cons c cs ih => simp [beginsWith, ih]

theorem hasSub_cons_split {c : Char} {cs pat : List Char}
    (h : hasSub (c :: cs) pat = false) :
    beginsWith (c :: cs) pat = false ∧ hasSub cs pat = false := by
  rw [hasSub] at h
  simpa using h

theorem replaceGo_nil (pat rep : List Char) (fuel : Nat) :
    replaceGo pat rep fuel [] = [] := by
  cases fuel <;> rfl

theorem replaceGo_no_occur (pat rep : List Char) :
    ∀ (s : List Char) (fuel : Nat), hasSub s pat = false →
      replaceGo pat rep fuel s = s := by
  intro s
  induction s with
  | nil => intro fuel _; exact replaceGo_nil pat rep fuel
  | cons c cs ih =>
    intro fuel h
    obtain ⟨hb, hrest⟩ := hasSub_cons_split h
    cases fuel with
    | zero => rfl
    | succ n => simp [replaceGo, hb, ih n hrest]

/-- `str.replace` is the identity when the pattern does not occur. -/
theorem replaceAll_no_occur (pat rep s : List Char)
    (h : hasSub s pat = false) : replaceAll pat rep s = s :=
  replaceGo_no_occur pat rep s s.length h

/-- `str.replace` on exactly the pattern itself yields the replacement. -/
theorem replaceAll_exact (pat rep : List Char) (h : pat ≠ []) :
    replaceAll pat rep pat = rep := by
  match pat, h with
  | c :: cs, _ =>
    show replaceGo (c :: cs) rep (c :: cs).length (c :: cs) = rep
    rw [List.length_cons, replaceGo]
    rw [if_pos (by simp [beginsWith_refl])]
    rw [show List.drop (c :: cs).length (c :: cs) = [] from List.drop_length _]
    rw [replaceGo_nil, List.append_nil]

theorem pyIndex_of_mem {α : Type} [DecidableEq α] {v : α} {l : List α}
    (h : v ∈ l) : ∃ i, pyIndex v l = some i := by
  induction l with
  | nil => simp at h
  | cons y ys ih =>
    by_cases hy : y = v
    · exact ⟨0, by simp [pyIndex, hy]⟩
    · have : v ∈ ys := by
        rcases List.mem_cons.mp h with h' | h'
        · exact absurd h'.symm hy
        · exact h'
      obtain ⟨i, hi⟩ := ih this
      exact ⟨i + 1, by simp [pyIndex, hy, hi]⟩

theorem pyIndex_lt {α : Type} [DecidableEq α] {v : α} :
    ∀ {l : List α} {i : Nat}, pyIndex v l = some i → i < l.length := by
  intro l
  induction l with
  | nil => intro i h; simp [pyIndex] at h
  | cons y ys ih =>
    intro i h
    rw [pyIndex] at h
    by_cases hy : y = v
    · simp [hy] at h
      simp [← h, List.length_cons]
    · simp [hy] at h
      obtain ⟨i', hi', rfl⟩ := h
      have := ih hi'
      simp only [List.length_cons]
      omega

theorem pyIndex_getD {α : Type} [DecidableEq α] {v : α} (d : α) :
    ∀ {l : List α} {i : Nat}, pyIndex v l = some i → l.getD i d = v := by
  intro l
  induction l with
  | nil => intro i h; simp [pyIndex] at h
  | cons y ys ih =>
    intro i h
    rw [pyIndex] at h
    by_cases hy : y = v
    · simp [hy] at h
      subst h
      simpa using hy
    · simp [hy] at h
      obtain ⟨i', hi', rfl⟩ := h
      simpa using ih hi'

theorem getD_set_ne {α : Type} (l : List α) (x d : α) {i j : Nat}
    (h : i ≠ j) : (l.set i x).getD j d = l.getD j d := by
  simp [List.getD_eq_getElem?_getD, List.getElem?_set_ne h]

theorem getD_set_self {α : Type} (l : List α) (x d : α) {i : Nat}
    (h : i < l.length) : (l.set i x).getD i d = x := by
  simp [List.getD_eq_getElem?_getD, List.getElem?_set_self h]

/-! ## Every `"+ "` delta line carries a line of the second sequence -/

theorem mem_dumpTag {t : Char} {x : List (List Char)} {lo hi : Nat}
    {l : List Char} (h : l ∈ dumpTag t x lo hi) :
    ∃ y, y ∈ x ∧ l = t :: ' ' :: y := by
  simp only [dumpTag, List.mem_map] at h
  obtain ⟨y, hy, rfl⟩ := h
  exact ⟨y, List.Sublist.mem hy
    ((List.take_sublist _ _).trans (List.drop_sublist _ _)), rfl⟩

theorem beginsWith_plusPre (t : Char) (y : List Char) :
    beginsWith (t :: ' ' :: y) plusPre = (t == '+') := by
  show (t == '+' && (' ' == ' ' && beginsWith y [])) = (t == '+')
  cases y <;> simp [beginsWith]

theorem dumpTag_plus {t : Char} {x : List (List Char)} {lo hi : Nat}
    {l : List Char} (h : l ∈ dumpTag t x lo hi)
    (hp : beginsWith l plusPre = true) : t = '+' ∧ l.drop 2 ∈ x := by
  obtain ⟨y, hy, rfl⟩ := mem_dumpTag h
  rw [beginsWith_plusPre] at hp
  exact ⟨beq_iff_eq.mp hp, hy⟩

theorem plainReplace_plus {a b : List (List Char)} {alo ahi blo bhi : Nat}
    {l : List Char} (h : l ∈ plainReplace a b alo ahi blo bhi)
    (hp : beginsWith l plusPre = true) : l.drop 2 ∈ b := by
  rw [plainReplace] at h
  split at h <;> rcases List.mem_append.mp h with h' | h'
  · exact (dumpTag_plus h' hp).2
  · exact absurd (dumpTag_plus h' hp).1 (by decide)
  · exact absurd (dumpTag_plus h' hp).1 (by decide)
  · exact (dumpTag_plus h' hp).2

theorem qformatAt_plus {a b : List (List Char)} {bi bj : Nat}
    {l : List Char} (h : l ∈ qformatAt a b bi bj)
    (hp : beginsWith l plusPre = true) : l.drop 2 ∈ b := by
  rw [qformatAt] at h
  rcases List.mem_append.mp h with h1 | h4
  · rcases List.mem_append.mp h1 with h2 | h3
    · rcases List.mem_append.mp h2 with h5 | h6
      · exact absurd (dumpTag_plus h5 hp).1 (by decide)
      · split at h6
        · simp at h6
        · simp only [List.mem_singleton] at h6
          subst h6
          rw [beginsWith_plusPre] at hp
          exact absurd hp (by decide)
    · exact (dumpTag_plus h3 hp).2
  · split at h4
    · simp at h4
    · simp only [List.mem_singleton] at h4
      subst h4
      rw [beginsWith_plusPre] at hp
      exact absurd hp (by decide)

theorem fancyReplace_plus (a b : List (List Char)) :
    ∀ (fuel alo ahi blo bhi : Nat) (l : List Char),
      l ∈ fancyReplace a b fuel alo ahi blo bhi →
      beginsWith l plusPre = true → l.drop 2 ∈ b := by
  intro fuel
  induction fuel with
  | zero => intro _ _ _ _ l h; simp [fancyReplace] at h
  | succ n ih =>
    intro alo ahi blo bhi l h hp
    rw [fancyReplace] at h
    rcases hsync : chooseSync
        ((pairList alo ahi blo bhi).foldl (scanStep a b) (none, none)) with
      _ | ⟨bi, bj, isEq⟩ <;> rw [hsync] at h
    · exact plainReplace_plus h hp
    · simp only [] at h
      rcases List.mem_append.mp h with h1 | h3
      · rcases List.mem_append.mp h1 with h2 | hmid
        · split at h2
          · split at h2
            · exact ih _ _ _ _ _ h2 hp
            · exact absurd (dumpTag_plus h2 hp).1 (by decide)
          · split at h2
            · exact (dumpTag_plus h2 hp).2
            · simp at h2
        · split at hmid
          · exact absurd (dumpTag_plus hmid hp).1 (by decide)
          · exact qformatAt_plus hmid hp
      · split at h3
        · split at h3
          · exact ih _ _ _ _ _ h3 hp
          · exact absurd (dumpTag_plus h3 hp).1 (by decide)
        · split at h3
          · exact (dumpTag_plus h3 hp).2
          · simp at h3

theorem mem_foldl_append {β γ : Type} (f : β → List γ) (l : List β) :
    ∀ (acc : List γ) (x : γ),
      x ∈ l.foldl (fun a o => a ++ f o) acc ↔ x ∈ acc ∨ ∃ o ∈ l, x ∈ f o := by
  induction l with
  | nil => simp
  | cons o os ih =>
    intro acc x
    rw [List.foldl_cons, ih]
    simp only [List.mem_append, List.mem_cons]
    constructor
    · rintro ((h | h) | ⟨o', ho', hx⟩)
      · exact Or.inl h
      · exact Or.inr ⟨o, Or.inl rfl, h⟩
      · exact Or.inr ⟨o', Or.inr ho', hx⟩
    · rintro (h | ⟨o', (rfl | ho'), hx⟩)
      · exact Or.inl (Or.inl h)
      · exact Or.inl (Or.inr hx)
      · exact Or.inr ⟨o', ho', hx⟩

/-- Every delta line of `ndiff(a, b)` that begins with `"+ "` consists of
the marker followed by a line of `b`. -/
theorem ndiffL_plus_mem {a b : List (List Char)} {l : List Char}
    (h : l ∈ ndiffL a b) (hp : beginsWith l plusPre = true) :
    l.drop 2 ∈ b := by
  rw [ndiffL, compareLines] at h
  rw [mem_foldl_append] at h
  rcases h with h | ⟨op, _, hop⟩
  · simp at h
  · obtain ⟨tag, o1, o2, o3, o4⟩ := op
    cases tag
    · exact fancyReplace_plus a b _ _ _ _ _ l hop hp
    · exact absurd (dumpTag_plus hop hp).1 (by decide)
    · exact (dumpTag_plus hop hp).2
    · exact absurd (dumpTag_plus hop hp).1 (by decide)

/-! ## The patch loop: success shape and failure condition -/

theorem touchedIdx_cons_plus {iL : List (List Char)} {l : List Char}
    {rest : List (List Char)} {idx : Nat}
    (hp : beginsWith l plusPre = true)
    (hidx : pyIndex (l.drop 2) iL = some idx) :
    touchedIdx iL (l :: rest) = idx :: touchedIdx iL rest := by
  simp [touchedIdx, List.filterMap_cons, hp, hidx]

theorem touchedIdx_cons_notplus {iL : List (List Char)} {l : List Char}
    {rest : List (List Char)} (hp : beginsWith l plusPre = false) :
    touchedIdx iL (l :: rest) = touchedIdx iL rest := by
  simp [touchedIdx, List.filterMap_cons, hp]

/-- When the rendered lines and the current README lines agree in number and
every `"+ "` delta line occurs among the rendered lines, the patch loop
succeeds; the output agrees with the rendered lines on the touched indices
and is byte-for-byte the input README line everywhere else. -/
theorem patchLoop_ok (fp tfp : List Char) (iL : List (List Char)) :
    ∀ (diff dL : List (List Char)),
      iL.length = dL.length →
      (∀ l ∈ diff, beginsWith l plusPre = true → l.drop 2 ∈ iL) →
      ∃ out, patchLoop fp tfp iL dL diff = .ok out ∧
        out.length = dL.length ∧
        (∀ j, j ∉ touchedIdx iL diff → out.getD j [] = dL.getD j []) ∧
        (∀ j, j ∈ touchedIdx iL diff → out.getD j [] = iL.getD j []) := by
  intro diff
  induction diff with
  | nil =>
    intro dL _ _
    exact ⟨dL, rfl, rfl, fun j _ => rfl, fun j hj => by simp [touchedIdx] at hj⟩
  | cons l rest ih =>
    intro dL hlen hmem
    by_cases hp : beginsWith l plusPre = true
    · have hd2 : l.drop 2 ∈ iL := hmem l (List.mem_cons_self l rest) hp
      obtain ⟨idx, hidx⟩ := pyIndex_of_mem hd2
      have hlt : idx < iL.length := pyIndex_lt hidx
      have hltD : idx < dL.length := hlen ▸ hlt
      have hval : iL.getD idx [] = l.drop 2 := pyIndex_getD [] hidx
      have hstep : patchLoop fp tfp iL dL (l :: rest) =
          patchLoop fp tfp iL (dL.set idx (l.drop 2)) rest := by
        rw [patchLoop, if_pos hp]
        simp only [hidx]
        rw [if_pos hltD]
      obtain ⟨out, hout, holen, huntouched, htouched⟩ :=
        ih (dL.set idx (l.drop 2))
          (by rw [List.length_set]; exact hlen)
          (fun l' hl' => hmem l' (List.mem_cons_of_mem _ hl'))
      refine ⟨out, hstep ▸ hout, by rw [holen, List.length_set], ?_, ?_⟩
      · intro j hj
        rw [touchedIdx_cons_plus hp hidx] at hj
        have hjidx : j ≠ idx := fun h => hj (h ▸ List.mem_cons_self idx _)
        have hjrest : j ∉ touchedIdx iL rest :=
          fun h => hj (List.mem_cons_of_mem _ h)
        rw [huntouched j hjrest, getD_set_ne _ _ _ (Ne.symm hjidx)]
      · intro j hj
        rw [touchedIdx_cons_plus hp hidx] at hj
        by_cases hjrest : j ∈ touchedIdx iL rest
        · exact htouched j hjrest
        · have hjidx : j = idx := by
            rcases List.mem_cons.mp hj with h | h
            · exact h
            · exact absurd h hjrest
          subst hjidx
          rw [huntouched j hjrest, getD_set_self _ _ _ hltD, hval]
    · have hp' : beginsWith l plusPre = false := by
        simpa using hp
      have hstep : patchLoop fp tfp iL dL (l :: rest) =
          patchLoop fp tfp iL dL rest := by
        rw [patchLoop, if_neg (by simp [hp'])]
      obtain ⟨out, hout, holen, huntouched, htouched⟩ :=
        ih dL hlen (fun l' hl' => hmem l' (List.mem_cons_of_mem _ hl'))
      rw [touchedIdx_cons_notplus hp']
      exact ⟨out, hstep ▸ hout, holen, huntouched, htouched⟩

/-- When some delta line is bad for the current README (its text is absent
from the rendered lines, or its first-occurrence index is out of the
README's line range), the patch loop raises the structural-mismatch
`ValueError`. -/
theorem patchLoop_error (fp tfp : List Char) (iL : List (List Char)) :
    ∀ (diff dL : List (List Char)),
      (∃ l ∈ diff, patchBad iL dL.length l = true) →
      patchLoop fp tfp iL dL diff = .error (mismatchMsg fp tfp) := by
  intro diff
  induction diff with
  | nil => rintro dL ⟨l, hl, _⟩; simp at hl
  | cons l rest ih =>
    rintro dL ⟨l', hl', hbad⟩
    rcases List.mem_cons.mp hl' with rfl | hl'rest
    · rw [patchBad] at hbad
      obtain ⟨hp, hrest⟩ := Bool.and_eq_true_iff.mp hbad
      rw [patchLoop, if_pos hp]
      rcases hidx : pyIndex (l'.drop 2) iL with _ | i
      · simp only [hidx]
      · rw [hidx] at hrest
        simp only [decide_eq_true_eq] at hrest
        simp only [hidx]
        rw [if_neg (by omega)]
    · by_cases hp : beginsWith l plusPre = true
      · rw [patchLoop, if_pos hp]
        rcases hidx : pyIndex (l.drop 2) iL with _ | i
        · simp only [hidx]
        · simp only [hidx]
          by_cases hlt : i < dL.length
          · rw [if_pos hlt]
            exact ih (dL.set i (l.drop 2))
              ⟨l', hl'rest, by rwa [List.length_set]⟩
          · rw [if_neg hlt]
      · rw [patchLoop, if_neg (by simp_all)]
        exact ih dL ⟨l', hl'rest, hbad⟩

/-- When no delta line is bad for the current README, the patch loop
succeeds, with an output of the same line count as the README. -/
theorem patchLoop_ok_of_good (fp tfp : List Char) (iL : List (List Char)) :
    ∀ (diff dL : List (List Char)),
      (∀ l ∈ diff, patchBad iL dL.length l = false) →
      ∃ out, patchLoop fp tfp iL dL diff = .ok out ∧
        out.length = dL.length := by
  intro diff
  induction diff with
  | nil => intro dL _; exact ⟨dL, rfl, rfl⟩
  | cons l rest ih =>
    intro dL hgood
    by_cases hp : beginsWith l plusPre = true
    · have hbad := hgood l (List.mem_cons_self l rest)
      rw [patchBad, hp] at hbad
      simp only [Bool.true_and] at hbad
      rcases hidx : pyIndex (l.drop 2) iL with _ | i
      · rw [hidx] at hbad
        exact absurd hbad (by simp)
      · rw [hidx] at hbad
        simp only [decide_eq_false_iff_not, not_le] at hbad
        have hstep : patchLoop fp tfp iL dL (l :: rest) =
            patchLoop fp tfp iL (dL.set i (l.drop 2)) rest := by
          rw [patchLoop, if_pos hp]
          simp only [hidx]
          rw [if_pos hbad]
        obtain ⟨out, hout, holen⟩ :=
          ih (dL.set i (l.drop 2))
            (fun l' hl' => by
              rw [List.length_set]
              exact hgood l' (List.mem_cons_of_mem _ hl'))
        exact ⟨out, hstep ▸ hout, by rw [holen, List.length_set]⟩
    · have hstep : patchLoop fp tfp iL dL (l :: rest) =
          patchLoop fp tfp iL dL rest := by
        rw [patchLoop, if_neg (by simp_all)]
      obtain ⟨out, hout, holen⟩ :=
        ih dL (fun l' hl' => hgood l' (List.mem_cons_of_mem _ hl'))
      exact ⟨out, hstep ▸ hout, holen⟩

/-! ## Claims C1-C3: the patch step -/

/-- Claim C1 is false as stated: with template lines `A`,`X`, rendered lines
`A`,`A` (so the two texts have equal line count and differ exactly at line
index 1) and document `m`,`n`, the patch step of `generate_readme` writes
rendered line 1 at index 0 — the first occurrence of its text — producing
`A`,`n` instead of the claimed `m`,`A`: the line at the changed index 1 is
not replaced, and the line at the unchanged index 0 is not preserved. -/
theorem claim_C1_counterexample :
    (splitKeepEnds (pyS "A\nX\n")).length =
        (splitKeepEnds (pyS "A\nA\n")).length ∧
    (splitKeepEnds (pyS "A\nX\n")).getD 0 [] =
        (splitKeepEnds (pyS "A\nA\n")).getD 0 [] ∧
    (splitKeepEnds (pyS "A\nX\n")).getD 1 [] ≠
        (splitKeepEnds (pyS "A\nA\n")).getD 1 [] ∧
    patchStep (pyS "R.md") (pyS "T.md") (pyS "A\nX\n") (pyS "A\nA\n")
        (pyS "m\nn\n") = .ok (pyS "A\nn\n") ∧
    pyS "A\nn\n" ≠ pyS "m\nA\n" := by
  refine ⟨by decide, by decide, by decide, by decide, by decide⟩

/-- Claim C1 (amended): for every template text `T`, rendered text `R` and
current document text `D` where `R` and `D` have the same line count, the
patch step of `generate_readme` succeeds, and its output has the
corresponding line of `R` at every index that is the first-occurrence index
in `R` of some `"+ "` diff line (`patchTargets`), and the line of `D`
byte-for-byte at every other index.  (This coincides with the original
claim whenever each changed line's text occurs in `R` only at its own
index; the counterexample shows the original form fails otherwise.) -/
theorem claim_C1 (readmeFp templateFp T R D : List Char)
    (h : (splitKeepEnds R).length = (splitKeepEnds D).length) :
    ∃ out : List (List Char),
      patchStep readmeFp templateFp T R D = .ok out.flatten ∧
      out.length = (splitKeepEnds D).length ∧
      (∀ j, j ∉ patchTargets T R →
        out.getD j [] = (splitKeepEnds D).getD j []) ∧
      (∀ j, j ∈ patchTargets T R →
        out.getD j [] = (splitKeepEnds R).getD j []) := by
  obtain ⟨out, hok, hlen, hun, hto⟩ :=
    patchLoop_ok readmeFp templateFp (splitKeepEnds R)
      (ndiffL (splitKeepEnds T) (splitKeepEnds R)) (splitKeepEnds D) h
      (fun l hl hp => ndiffL_plus_mem hl hp)
  refine ⟨out, ?_, hlen, hun, hto⟩
  rw [patchStep]
  simp only [hok]

/-- Witness for the amended C1 at a concrete input. -/
theorem claim_C1_witness :
    (splitKeepEnds (pyS "x\n")).length = (splitKeepEnds (pyS "d\n")).length ∧
    (∃ out : List (List Char),
      patchStep (pyS "R.md") (pyS "T.md") (pyS "p\n") (pyS "x\n")
        (pyS "d\n") = .ok out.flatten ∧
      out.length = (splitKeepEnds (pyS "d\n")).length ∧
      (∀ j, j ∉ patchTargets (pyS "p\n") (pyS "x\n") →
        out.getD j [] = (splitKeepEnds (pyS "d\n")).getD j []) ∧
      (∀ j, j ∈ patchTargets (pyS "p\n") (pyS "x\n") →
        out.getD j [] = (splitKeepEnds (pyS "x\n")).getD j [])) :=
  ⟨by decide,
   claim_C1 (pyS "R.md") (pyS "T.md") (pyS "p\n") (pyS "x\n") (pyS "d\n")
     (by decide)⟩

/-- Claim C2 is false as stated: with a one-line template `{{SCP_URL}}` and
a two-line current document `a`,`b` (differing line counts), the patch step
does not fail — the changed line's index 0 is in range — and the README is
written: `generate_readme` returns the patched text and writes it out. -/
theorem claim_C2_counterexample :
    (splitKeepEnds (pyS "a\nb\n")).length ≠
        (splitKeepEnds (pyS "\x7b\x7bSCP_URL\x7d\x7d\n")).length ∧
    generateReadme
        (some ⟨pyS "t", pyS "ta", pyS "X", pyS "s"⟩) none
        (some (pyS "R.md")) (pyS "a\nb\n") (pyS "T.md")
        (pyS "\x7b\x7bSCP_URL\x7d\x7d\n") =
      (.ok (pyS "X\nb\n"), some (pyS "X\nb\n")) := by
  refine ⟨by decide, by decide⟩

/-- Claim C2 (amended): the patch step of `generate_readme` raises the
structural-mismatch `ValueError` — whose message names the README path and
the template path — exactly when some `"+ "` diff line is bad for the
current document: its text is absent from the rendered lines, or its
first-occurrence index lies outside the document's line range (in
particular whenever the document has fewer lines than every such index
requires).  On that failure `generate_readme` aborts and writes nothing:
the on-disk document is left intact.  Conversely, when no diff line is bad
the patch step succeeds and `generate_readme` returns and writes its
output. -/
theorem claim_C2 (readmeFp templateFp T R D : List Char) :
    ((∃ l ∈ ndiffL (splitKeepEnds T) (splitKeepEnds R),
        patchBad (splitKeepEnds R) (splitKeepEnds D).length l = true) ↔
      patchStep readmeFp templateFp T R D =
        .error (mismatchMsg readmeFp templateFp)) ∧
    ((∃ l ∈ ndiffL (splitKeepEnds T) (splitKeepEnds R),
        patchBad (splitKeepEnds R) (splitKeepEnds D).length l = true) →
      ∀ (scp : Option SCPData) (wiki : Option WikipediaData),
        (scp.isSome ∨ wiki.isSome) → renderInter T scp wiki = R →
        generateReadme scp wiki (some readmeFp) D templateFp T =
          (.error (mismatchMsg readmeFp templateFp), none)) ∧
    ((∀ l ∈ ndiffL (splitKeepEnds T) (splitKeepEnds R),
        patchBad (splitKeepEnds R) (splitKeepEnds D).length l = false) →
      ∃ out : List Char,
        patchStep readmeFp templateFp T R D = .ok out ∧
        ∀ (scp : Option SCPData) (wiki : Option WikipediaData),
          (scp.isSome ∨ wiki.isSome) → renderInter T scp wiki = R →
          generateReadme scp wiki (some readmeFp) D templateFp T =
            (.ok out, some out)) := by
  refine ⟨⟨?_, ?_⟩, ?_, ?_⟩
  · intro h
    rw [patchStep]
    rw [patchLoop_error readmeFp templateFp (splitKeepEnds R)
      (ndiffL (splitKeepEnds T) (splitKeepEnds R)) (splitKeepEnds D) h]
  · intro herr
    by_contra hno
    push_neg at hno
    have hgood : ∀ l ∈ ndiffL (splitKeepEnds T) (splitKeepEnds R),
        patchBad (splitKeepEnds R) (splitKeepEnds D).length l = false := by
      intro l hl
      simpa using hno l hl
    obtain ⟨out, hok, _⟩ :=
      patchLoop_ok_of_good readmeFp templateFp (splitKeepEnds R)
        (ndiffL (splitKeepEnds T) (splitKeepEnds R)) (splitKeepEnds D) hgood
    have hps : patchStep readmeFp templateFp T R D = .ok out.flatten := by
      rw [patchStep]
      simp only [hok]
    rw [hps] at herr
    exact Except.noConfusion herr
  · intro h
    have hpatch : patchStep readmeFp templateFp T R D =
        .error (mismatchMsg readmeFp templateFp) := by
      rw [patchStep]
      rw [patchLoop_error readmeFp templateFp (splitKeepEnds R)
        (ndiffL (splitKeepEnds T) (splitKeepEnds R)) (splitKeepEnds D) h]
    rintro (_ | s) (_ | w) hsome hrender
    · simp at hsome
    · simp only [generateReadme, hrender, hpatch]
    · simp only [generateReadme, hrender, hpatch]
    · simp only [generateReadme, hrender, hpatch]
  · intro hgood
    obtain ⟨out, hok, _⟩ :=
      patchLoop_ok_of_good readmeFp templateFp (splitKeepEnds R)
        (ndiffL (splitKeepEnds T) (splitKeepEnds R)) (splitKeepEnds D) hgood
    have hps : patchStep readmeFp templateFp T R D = .ok out.flatten := by
      rw [patchStep]
      simp only [hok]
    refine ⟨out.flatten, hps, ?_⟩
    rintro (_ | s) (_ | w) hsome hrender
    · simp at hsome
    · simp only [generateReadme, hrender, hps]
    · simp only [generateReadme, hrender, hps]
    · simp only [generateReadme, hrender, hps]

/-- Witness for the amended C2, exercising both directions at concrete
inputs: an empty document (shorter than the template) makes
`generate_readme` abort without writing, while a two-line document patched
from a one-line template has every changed index in range, so the patch
succeeds and the output is written. -/
theorem claim_C2_witness :
    generateReadme (some ⟨pyS "t", pyS "ta", pyS "x", pyS "s"⟩) none
        (some (pyS "R.md")) (pyS "") (pyS "T.md")
        (pyS "\x7b\x7bSCP_URL\x7d\x7d\nq\n") =
      (.error (mismatchMsg (pyS "R.md") (pyS "T.md")), none) ∧
    (∃ out : List Char,
      patchStep (pyS "R.md") (pyS "T.md") (pyS "\x7b\x7bSCP_URL\x7d\x7d\n")
          (pyS "X\n") (pyS "a\nb\n") = .ok out ∧
      generateReadme (some ⟨pyS "t", pyS "ta", pyS "X", pyS "s"⟩) none
          (some (pyS "R.md")) (pyS "a\nb\n") (pyS "T.md")
          (pyS "\x7b\x7bSCP_URL\x7d\x7d\n") = (.ok out, some out)) :=
  ⟨(claim_C2 (pyS "R.md") (pyS "T.md") (pyS "\x7b\x7bSCP_URL\x7d\x7d\nq\n")
      (pyS "x\nq\n") (pyS "")).2.1 (by decide)
      (some ⟨pyS "t", pyS "ta", pyS "x", pyS "s"⟩) none (Or.inl rfl)
      (by decide),
   by
     obtain ⟨out, hps, hgen⟩ :=
       (claim_C2 (pyS "R.md") (pyS "T.md") (pyS "\x7b\x7bSCP_URL\x7d\x7d\n")
         (pyS "X\n") (pyS "a\nb\n")).2.2 (by decide)
     exact ⟨out, hps, hgen (some ⟨pyS "t", pyS "ta", pyS "X", pyS "s"⟩) none
       (Or.inl rfl) (by decide)⟩⟩

/-- Claim C3: with no channel data applied (both records absent, so the
rendered text is line-identical to the template), `generate_readme` is a
no-op on the current document: it returns the document text unchanged and
writes nothing, for every template and every document. -/
theorem claim_C3 (T D fp tfp : List Char) :
    generateReadme none none (some fp) D tfp T = (.ok D, none) := rfl

/-! ## Claims C4, C5, C8: the validation gate and retry exhaustion -/

/-- When every generation attempt returns text carrying the `ERROR` marker
(and no `INAPPROPRIATE` marker), `summarize` with budget `b` starting at
attempt `k` consumes attempts `k..k+b` and raises
`LLMResponseInvalidError` carrying the last attempt's text. -/
theorem summarize_err_exhaust (g : List Char → Nat → GenResp) (p : List Char)
    (t : Nat → List Char) (hg : ∀ i, g p i = .text (t i))
    (he : ∀ i, hasSub (t i) strErr = true)
    (hi : ∀ i, hasSub (t i) strInap = false) :
    ∀ b k, summarize g p k b = .error (.invalid (t (k + b))) := by
  intro b
  induction b with
  | zero =>
    intro k
    rw [summarize, hg k]
    simp [hi k, he k]
  | succ n ih =>
    intro k
    rw [summarize, hg k]
    have harith : k + 1 + n = k + (n + 1) := by omega
    simp [hi k, he k, ih (k + 1), harith]

/-- `summarize` starting at attempt `k` with budget `b` only consults the
generation oracle at attempts `k..k+b`. -/
theorem summarize_agree (g g2 : List Char → Nat → GenResp) (p : List Char) :
    ∀ b k, (∀ i, k ≤ i → i ≤ k + b → g2 p i = g p i) →
      summarize g2 p k b = summarize g p k b := by
  intro b
  induction b with
  | zero =>
    intro k h
    conv_lhs => rw [summarize]
    conv_rhs => rw [summarize]
    rw [h k le_rfl (by omega)]
  | succ n ih =>
    intro k h
    conv_lhs => rw [summarize]
    conv_rhs => rw [summarize]
    rw [h k le_rfl (by omega)]
    cases g p k with
    | noText => rfl
    | text t0 =>
      have hrec : summarize g2 p (k + 1) n = summarize g p (k + 1) n :=
        ih (k + 1) (fun i h1 h2 => h i (by omega) (by omega))
      by_cases hin : hasSub t0 strInap = true
      · simp [hin]
      · by_cases herr : hasSub t0 strErr = true
        · simp [hin, herr, hrec]
        · simp [hin, herr]

/-- Claim C4: holding all other content fixed (a single generation attempt,
no marker substrings), a summary whose post-trim length is exactly 200 is
rejected as too short, and one whose post-trim length is 201 is accepted
and returned (with internal newlines collapsed to spaces). -/
theorem claim_C4 (g1 g2 : List Char → Nat → GenResp) (p s200 s201 : List Char)
    (b : Nat)
    (h1 : g1 p 0 = .text s200) (h1i : hasSub s200 strInap = false)
    (h1e : hasSub s200 strErr = false) (h1len : (pyStrip s200).length = 200)
    (h2 : g2 p 0 = .text s201) (h2i : hasSub s201 strInap = false)
    (h2e : hasSub s201 strErr = false) (h2len : (pyStrip s201).length = 201) :
    summarize g1 p 0 b = .error (.tooShort (pyStrip s200)) ∧
    summarize g2 p 0 b = .ok (replaceAll (pyS "\n") (pyS " ") (pyStrip s201)) := by
  constructor
  · rw [summarize, h1]
    simp [h1i, h1e, h1len]
  · rw [summarize, h2]
    simp [h2i, h2e, h2len]

/-- Witness for C4 at concrete inputs: 200 `'a'`s rejected, 201 `'a'`s
accepted. -/
theorem claim_C4_witness :
    summarize (fun _ _ => .text (List.replicate 200 'a')) (pyS "p") 0 3 =
      .error (.tooShort (pyStrip (List.replicate 200 'a'))) ∧
    summarize (fun _ _ => .text (List.replicate 201 'a')) (pyS "p") 0 3 =
      .ok (replaceAll (pyS "\n") (pyS " ") (pyStrip (List.replicate 201 'a'))) :=
  claim_C4 (fun _ _ => .text (List.replicate 200 'a'))
    (fun _ _ => .text (List.replicate 201 'a')) (pyS "p")
    (List.replicate 200 'a') (List.replicate 201 'a') 3
    rfl (by decide) (by decide) (by decide)
    rfl (by decide) (by decide) (by decide)

/-- Claim C5: with a generation oracle that answers every prompt and attempt
with `ERROR`-marked text and a retry budget of `N`, `summarize` makes
exactly `N+1` generation attempts — it raises `LLMResponseInvalidError`
carrying attempt `N`'s text, and its result depends only on attempts
`0..N` — all with the same prompt (the recursion passes `p` unchanged), and
the Wikipedia orchestration loop thereupon records the channel as absent
(`None`) instead of resampling. -/
theorem claim_C5 (g : List Char → Nat → GenResp) (N : Nat)
    (t : Nat → List Char)
    (hg : ∀ pr i, g pr i = .text (t i))
    (he : ∀ i, hasSub (t i) strErr = true)
    (hi : ∀ i, hasSub (t i) strInap = false) :
    (∀ p, summarize g p 0 N = .error (.invalid (t N))) ∧
    (∀ (p : List Char) (g2 : List Char → Nat → GenResp),
      (∀ i, i ≤ N → g2 p i = g p i) →
      summarize g2 p 0 N = summarize g p 0 N) ∧
    (∀ (src : Nat → Except Unit (List Char))
        (gens : Nat → List Char → Nat → GenResp) (up : List Char → List Char)
        (iter fuel : Nat) (u : List Char),
      gens iter = g → src iter = .ok u →
      wikiLoop src gens up N iter (fuel + 1) = .res none) := by
  refine ⟨?_, ?_, ?_⟩
  · intro p
    have := summarize_err_exhaust g p t (hg p) he hi N 0
    simpa using this
  · intro p g2 h
    exact summarize_agree g g2 p N 0 (fun i h1 h2 => h i (by omega))
  · intro src gens up iter fuel u hgens hsrc
    rw [wikiLoop, hsrc, hgens]
    have hsum := summarize_err_exhaust g (up u) t (hg (up u)) he hi N 0
    simp only [Nat.zero_add] at hsum
    simp [hsum]

/-- Witness for C5 at a concrete input (budget 2, constant `ERROR`
responses). -/
theorem claim_C5_witness :
    summarize (fun _ _ => .text (pyS "ERROR")) (pyS "prompt") 0 2 =
      .error (.invalid (pyS "ERROR")) :=
  (claim_C5 (fun _ _ => .text (pyS "ERROR")) 2 (fun _ => pyS "ERROR")
    (fun _ _ => rfl)
    (fun _ => (by decide : hasSub (pyS "ERROR") strErr = true))
    (fun _ => (by decide : hasSub (pyS "ERROR") strInap = false))).1
    (pyS "prompt")

/-- Claim C8 is false as stated: an empty-string generation output is not
classified as the malformed/error category (`LLMResponseError`) but as too
short (`LLMResponseTooShortError`): `resp.text == ""` is not `None`,
carries no marker, and its trimmed length 0 is below the 200 threshold. -/
theorem claim_C8_counterexample :
    summarize (fun _ _ => GenResp.text []) (pyS "p") 0 3 =
      .error (.tooShort []) ∧
    SummErr.tooShort [] ≠ SummErr.llmError := ⟨by decide, by decide⟩

/-- Claim C8 (amended): an absent generation output (`resp.text is None`)
raises the base `LLMResponseError` (the malformed/error category), while an
empty-string output falls through the marker checks and is rejected as too
short. -/
theorem claim_C8 (g : List Char → Nat → GenResp) (p : List Char) (k b : Nat) :
    (g p k = .noText → summarize g p k b = .error .llmError) ∧
    (g p k = .text [] → summarize g p k b = .error (.tooShort [])) := by
  constructor
  · intro h
    rw [summarize, h]
  · intro h
    rw [summarize, h]
    simp [show hasSub [] strInap = false by decide,
      show hasSub [] strErr = false by decide, pyStrip]

/-- Witness for the amended C8 at concrete inputs. -/
theorem claim_C8_witness :
    summarize (fun _ _ => GenResp.noText) (pyS "p") 0 3 = .error .llmError ∧
    summarize (fun _ _ => GenResp.text []) (pyS "q") 1 2 =
      .error (.tooShort []) :=
  ⟨(claim_C8 (fun _ _ => .noText) (pyS "p") 0 3).1 rfl,
   (claim_C8 (fun _ _ => .text []) (pyS "q") 1 2).2 rfl⟩

/-! ## Claim C10: random URL selection -/

theorem splitPlainGo_ne_nil :
    ∀ (cur s : List Char), s ≠ [] ∨ cur ≠ [] → splitPlainGo cur s ≠ [] := by
  intro cur s
  induction cur, s using splitPlainGo.induct with
  | case1 cur hcur =>
    intro h
    rcases h with h | h
    · exact absurd rfl h
    · rw [splitPlainGo, if_pos hcur] at *
      exact absurd (List.isEmpty_iff.mp hcur) h
  | case2 cur hcur =>
    intro _
    rw [splitPlainGo, if_neg hcur]
    simp
  | case3 cur rest _ => intro _; rw [splitPlainGo]; simp
  | case4 cur rest hne _ =>
    intro _
    rw [splitPlainGo.eq_def]
    rcases rest with _ | ⟨c, rest'⟩
    · simp
    · by_cases hc : c = '\n'
      · exact absurd (by rw [hc]) (hne rest')
      · simp [hc]
  | case5 cur rest _ => intro _; rw [splitPlainGo]; simp
  | case6 cur c rest h1 h2 h3 ih =>
    intro _
    have hstep : splitPlainGo cur (c :: rest) = splitPlainGo (c :: cur) rest := by
      rw [splitPlainGo.eq_def]
      rcases rest with _ | ⟨c2, rest'⟩
      · simp [h2, h3]
      · by_cases hc2 : c = '\x0d' ∧ c2 = '\n'
        · exact (h1 rest' hc2.1 (by rw [hc2.2])).elim
        · simp [h2, h3]
    rw [hstep]
    exact ih (Or.inr (by simp))

theorem getD_mem_of_lt {α : Type} {l : List α} {i : Nat} (d : α)
    (h : i < l.length) : l.getD i d ∈ l := by
  rw [List.getD_eq_getElem?_getD, List.getElem?_eq_getElem h]
  exact List.getElem_mem h

/-- Claim C10: for every URL-list file with non-empty contents,
`get_random_wikipedia_url` returns the whitespace-stripped text of one of
the file's lines (whichever line the random draw selects); for empty
contents the selection is over an empty sequence and raises `IndexError`
instead of returning a value. -/
theorem claim_C10 (contents : List Char) (pick : Nat) :
    (contents ≠ [] → ∃ l, l ∈ splitLinesNoEnds contents ∧
      getRandomWikipediaUrl contents pick = .ok (pyStrip l)) ∧
    (contents = [] → getRandomWikipediaUrl contents pick = .error ()) := by
  constructor
  · intro hne
    have hurls : splitLinesNoEnds contents ≠ [] :=
      splitPlainGo_ne_nil [] contents (Or.inl hne)
    have hlen : pick % (splitLinesNoEnds contents).length <
        (splitLinesNoEnds contents).length :=
      Nat.mod_lt _ (List.length_pos.mpr hurls)
    refine ⟨(splitLinesNoEnds contents).getD
        (pick % (splitLinesNoEnds contents).length) [],
      getD_mem_of_lt [] hlen, ?_⟩
    rw [getRandomWikipediaUrl]
    rcases hsplit : splitLinesNoEnds contents with _ | ⟨u, us⟩
    · exact absurd hsplit hurls
    · simp only [hsplit]
  · intro h
    subst h
    rfl

/-- Witness for C10 at concrete inputs (two URLs, then an empty file). -/
theorem claim_C10_witness :
    (pyS "u1\nu2\n" ≠ [] ∧
      ∃ l, l ∈ splitLinesNoEnds (pyS "u1\nu2\n") ∧
        getRandomWikipediaUrl (pyS "u1\nu2\n") 5 = .ok (pyStrip l)) ∧
    ((pyS "" : List Char) = [] ∧
      getRandomWikipediaUrl (pyS "") 5 = .error ()) :=
  ⟨⟨by decide, (claim_C10 (pyS "u1\nu2\n") 5).1 (by decide)⟩,
   ⟨rfl, (claim_C10 (pyS "") 5).2 rfl⟩⟩

/-! ## Claim C6: rendering and re-entrant substitution -/

/-- Claim C6 is false as stated: the substitutions are sequential, so a
field value inserted by an earlier step is re-scanned by the later steps.
With template `{{SCP_SUMMARY}}`, an SCP summary whose text is the literal
`{{WIKIPEDIA_URL}}` placeholder, and Wikipedia data with URL `W`, the
rendering produces `W`: the placeholder text inside the inserted summary
*was* expanded. -/
theorem claim_C6_counterexample :
    renderInter (pyS "\x7b\x7bSCP_SUMMARY\x7d\x7d")
        (some ⟨[], [], [], phWikiUrl⟩) (some ⟨pyS "t", pyS "W", pyS "s"⟩) =
      pyS "W" ∧
    pyS "W" ≠ phWikiUrl := ⟨by decide, by decide⟩

/-- Claim C6 (amended): substitution is applied in a fixed sequential order
(SCP URL, title, alternate title, summary, then Wikipedia URL, title,
summary).  An inserted field value containing literal placeholder syntax
for a *later* step is expanded by that step: with template `{{SCP_SUMMARY}}`
and an SCP summary that is the literal `{{WIKIPEDIA_URL}}` text, the result
is the Wikipedia URL itself (for any URL value not containing the two
remaining Wikipedia placeholders).  Placeholder syntax for an
*already-processed* step is left verbatim: a Wikipedia summary containing
`{{SCP_URL}}` survives unexpanded. -/
theorem claim_C6 :
    (∀ w : WikipediaData,
      hasSub w.url phWikiTitle = false → hasSub w.url phWikiSummary = false →
      renderInter (pyS "\x7b\x7bSCP_SUMMARY\x7d\x7d")
        (some ⟨[], [], [], phWikiUrl⟩) (some w) = w.url) ∧
    renderInter (pyS "\x7b\x7bWIKIPEDIA_SUMMARY\x7d\x7d")
        (some ⟨pyS "t", pyS "ta", pyS "u", pyS "s"⟩)
        (some ⟨pyS "wt", pyS "wu", phScpUrl⟩) = phScpUrl := by
  constructor
  · intro w h1 h2
    show replaceAll phWikiSummary w.summary
        (replaceAll phWikiTitle w.title
          (replaceAll phWikiUrl w.url
            (replaceAll phScpSummary phWikiUrl
              (replaceAll phScpTitleAlt []
                (replaceAll phScpTitle []
                  (replaceAll phScpUrl []
                    (pyS "\x7b\x7bSCP_SUMMARY\x7d\x7d"))))))) = w.url
    rw [show replaceAll phScpSummary phWikiUrl
        (replaceAll phScpTitleAlt []
          (replaceAll phScpTitle []
            (replaceAll phScpUrl [] (pyS "\x7b\x7bSCP_SUMMARY\x7d\x7d")))) =
      phWikiUrl from by decide]
    rw [replaceAll_exact phWikiUrl w.url (by decide)]
    rw [replaceAll_no_occur phWikiTitle w.title w.url h1]
    rw [replaceAll_no_occur phWikiSummary w.summary w.url h2]
  · decide

/-- Witness for the amended C6 at a concrete Wikipedia record. -/
theorem claim_C6_witness :
    hasSub (pyS "W") phWikiTitle = false ∧
    hasSub (pyS "W") phWikiSummary = false ∧
    renderInter (pyS "\x7b\x7bSCP_SUMMARY\x7d\x7d")
        (some ⟨[], [], [], phWikiUrl⟩) (some ⟨pyS "t", pyS "W", pyS "s"⟩) =
      pyS "W" :=
  ⟨by decide, by decide,
   claim_C6.1 ⟨pyS "t", pyS "W", pyS "s"⟩ (by decide) (by decide)⟩

/-! ## Claims C7 and C9: the orchestration loops -/

/-- The Wikipedia loop is not running once some reachable iteration does
not `continue` (its sourcing fails, or its summary is accepted or fatally
rejected). -/
theorem wikiLoop_stops (src : Nat → Except Unit (List Char))
    (gens : Nat → List Char → Nat → GenResp) (up : List Char → List Char)
    (b : Nat) :
    ∀ (fuel iter : Nat),
      (∃ k, k < fuel ∧ wikiKeepsGoing src gens up b (iter + k) = false) →
      wikiLoop src gens up b iter fuel ≠ .running := by
  intro fuel
  induction fuel with
  | zero => rintro iter ⟨k, hk, _⟩; omega
  | succ n ih =>
    rintro iter ⟨k, hk, hstop⟩
    rw [wikiLoop]
    rcases hsrc : src iter with _ | u
    · simp [hsrc]
    · rcases hsum : summarize (gens iter) (up u) 0 b with e | s
      · rcases e with _ | s' | s' | s'
        · simp [hsrc, hsum]
        · have hk0 : k ≠ 0 := by
            intro h0
            rw [h0, Nat.add_zero] at hstop
            simp only [wikiKeepsGoing, hsrc, hsum] at hstop
            exact Bool.noConfusion hstop
          simp only [hsrc, hsum]
          exact ih (iter + 1)
            ⟨k - 1, by omega, by
              have harith : (iter + 1) + (k - 1) = iter + k := by omega
              rw [harith]
              exact hstop⟩
        · simp [hsrc, hsum]
        · have hk0 : k ≠ 0 := by
            intro h0
            rw [h0, Nat.add_zero] at hstop
            simp only [wikiKeepsGoing, hsrc, hsum] at hstop
            exact Bool.noConfusion hstop
          simp only [hsrc, hsum]
          exact ih (iter + 1)
            ⟨k - 1, by omega, by
              have harith : (iter + 1) + (k - 1) = iter + k := by omega
              rw [harith]
              exact hstop⟩
      · simp [hsrc, hsum]

/-- The Wikipedia loop can only abort by `raised` at an iteration whose
sourcing fails. -/
theorem wikiLoop_no_raise (src : Nat → Except Unit (List Char))
    (gens : Nat → List Char → Nat → GenResp) (up : List Char → List Char)
    (b : Nat) (hsrc : ∀ i, ∃ u, src i = .ok u) :
    ∀ (fuel iter : Nat), wikiLoop src gens up b iter fuel ≠ .raised := by
  intro fuel
  induction fuel with
  | zero => intro iter; simp [wikiLoop]
  | succ n ih =>
    intro iter
    obtain ⟨u, hu⟩ := hsrc iter
    rw [wikiLoop, hu]
    rcases hsum : summarize (gens iter) (up u) 0 b with e | s
    · rcases e with _ | s' | s' | s' <;> simp only [hsum] <;>
        first
          | exact ih (iter + 1)
          | simp
    · simp [hsum]

/-- The SCP loop is not running once some reachable iteration does not
`continue`. -/
theorem scpLoop_stops (src : Nat → Except Unit ScpPage)
    (gens : Nat → List Char → Nat → GenResp) (up : List Char → List Char)
    (b : Nat) :
    ∀ (fuel iter : Nat),
      (∃ k, k < fuel ∧ scpKeepsGoing src gens up b (iter + k) = false) →
      scpLoop src gens up b iter fuel ≠ .running := by
  intro fuel
  induction fuel with
  | zero => rintro iter ⟨k, hk, _⟩; omega
  | succ n ih =>
    rintro iter ⟨k, hk, hstop⟩
    rw [scpLoop]
    rcases hsrc : src iter with _ | page
    · simp [hsrc]
    · rcases hsum : summarize (gens iter) (up page.url) 0 b with e | s
      · rcases e with _ | s' | s' | s'
        · simp [hsrc, hsum]
        · have hk0 : k ≠ 0 := by
            intro h0
            rw [h0, Nat.add_zero] at hstop
            simp only [scpKeepsGoing, hsrc, hsum] at hstop
            exact Bool.noConfusion hstop
          simp only [hsrc, hsum]
          exact ih (iter + 1)
            ⟨k - 1, by omega, by
              have harith : (iter + 1) + (k - 1) = iter + k := by omega
              rw [harith]
              exact hstop⟩
        · simp [hsrc, hsum]
        · have hk0 : k ≠ 0 := by
            intro h0
            rw [h0, Nat.add_zero] at hstop
            simp only [scpKeepsGoing, hsrc, hsum] at hstop
            exact Bool.noConfusion hstop
          simp only [hsrc, hsum]
          exact ih (iter + 1)
            ⟨k - 1, by omega, by
              have harith : (iter + 1) + (k - 1) = iter + k := by omega
              rw [harith]
              exact hstop⟩
      · simp [hsrc, hsum]

/-- Claim C7 is false as stated: the SCP channel succeeds, yet a Wikipedia
*sourcing* failure (the `get_random_wikipedia_url` call sits outside every
`try` block) propagates out of the loop and aborts the run before
`generate_readme` — the final README is neither generated nor written,
despite the successful channel. -/
theorem claim_C7_counterexample :
    scpLoop c7ScpSrc c7Gens id 3 0 1 =
      .res (some ⟨pyS "SCP-001", pyS "Alt", pyS "scp-url",
        List.replicate 201 'a'⟩) ∧
    pipeline c7ScpSrc c7WikiSrc c7Gens c7Gens id id 3
        (some (pyS "R.md")) (pyS "doc") (pyS "T.md") (pyS "tmpl") 1 1 =
      .raised := ⟨by decide, by decide⟩

/-- Claim C7 (amended): every *generation* failure on either channel and
every SCP *sourcing* failure is absorbed locally into "channel absent" and
never prevents the run from reaching `generate_readme`; but a Wikipedia
sourcing failure is not caught and aborts the run.  Whenever both loops
reach a non-resampling iteration within their fuel and the Wikipedia
sourcing oracle never fails, the pipeline completes: it reaches README
generation with whichever channels succeeded. -/
theorem claim_C7 (scpSrc : Nat → Except Unit ScpPage)
    (wikiSrc : Nat → Except Unit (List Char))
    (gensS gensW : Nat → List Char → Nat → GenResp)
    (upS upW : List Char → List Char) (budget : Nat)
    (readmeFp : Option (List Char)) (readmeDoc templateFp templateText : List Char)
    (fuel1 fuel2 : Nat)
    (h1 : ∃ k, k < fuel1 ∧ scpKeepsGoing scpSrc gensS upS budget k = false)
    (h2 : ∃ k, k < fuel2 ∧ wikiKeepsGoing wikiSrc gensW upW budget k = false)
    (h3 : ∀ i, ∃ u, wikiSrc i = .ok u) :
    ∃ r w, pipeline scpSrc wikiSrc gensS gensW upS upW budget
      readmeFp readmeDoc templateFp templateText fuel1 fuel2 =
        .completed r w := by
  have h1' : ∃ k, k < fuel1 ∧ scpKeepsGoing scpSrc gensS upS budget (0 + k) = false := by
    simpa using h1
  have h2' : ∃ k, k < fuel2 ∧ wikiKeepsGoing wikiSrc gensW upW budget (0 + k) = false := by
    simpa using h2
  rcases hscp : scpLoop scpSrc gensS upS budget 0 fuel1 with _ | d
  · exact absurd hscp (scpLoop_stops scpSrc gensS upS budget fuel1 0 h1')
  · rcases hwiki : wikiLoop wikiSrc gensW upW budget 0 fuel2 with _ | _ | wd
    · exact absurd hwiki (wikiLoop_stops wikiSrc gensW upW budget fuel2 0 h2')
    · exact absurd hwiki (wikiLoop_no_raise wikiSrc gensW upW budget h3 fuel2 0)
    · exact ⟨(generateReadme d wd readmeFp readmeDoc templateFp templateText).1,
        (generateReadme d wd readmeFp readmeDoc templateFp templateText).2,
        by rw [pipeline, hscp, hwiki]⟩

/-- Witness for the amended C7: SCP sourcing always fails (absorbed into
"absent"), Wikipedia generation always returns `ERROR` (abandoned after
retries), and the run still completes. -/
theorem claim_C7_witness :
    ∃ r w, pipeline (fun _ => .error ()) c9Src
        c7Gens (fun _ _ _ => .text (pyS "ERROR")) id id 1
        (some (pyS "R.md")) (pyS "doc") (pyS "T.md") (pyS "tmpl") 1 1 =
      .completed r w :=
  claim_C7 (fun _ => .error ()) c9Src c7Gens (fun _ _ _ => .text (pyS "ERROR"))
    id id 1 (some (pyS "R.md")) (pyS "doc") (pyS "T.md") (pyS "tmpl") 1 1
    ⟨0, by omega,
      (by decide : scpKeepsGoing (fun _ => Except.error ()) c7Gens id 1 0 =
        false)⟩
    ⟨0, by omega,
      (by decide : wikiKeepsGoing c9Src (fun _ _ _ => GenResp.text (pyS "ERROR"))
        id 1 0 = false)⟩
    (fun i => ⟨pyS "u", rfl⟩)

/-- Claim C9 is false as stated: with a source that always succeeds and a
generation service whose summaries are always marker-free but too short,
the channel loop resamples forever — the loop body always `continue`s, so
no bound on total work exists (the model loop is still running after any
amount of fuel). -/
theorem claim_C9_counterexample : c9NeverDone := by
  have aux : ∀ (fuel iter : Nat),
      wikiLoop c9Src c9Gens id 3 iter fuel = .running := by
    intro fuel
    induction fuel with
    | zero => intro iter; rfl
    | succ n ih =>
      intro iter
      have hsum : summarize (fun (_ : List Char) (_ : Nat) =>
            GenResp.text (pyS "OK")) (pyS "u") 0 3 =
          .error (.tooShort (pyS "OK")) := by decide
      rw [wikiLoop]
      simp only [c9Src, c9Gens, id, hsum]
      exact ih (iter + 1)
  exact fun fuel => aux fuel 0

/-- Claim C9 (amended): each channel loop terminates as soon as some
iteration within the available work does not resample — its sourcing fails
(SCP: absorbed; Wikipedia: raised), or its summary is accepted or fatally
rejected.  Content-quality rejections (policy / too short) resample a new
candidate without consuming any budget, so a service that rejects every
candidate that way makes the loop run unboundedly (the counterexample). -/
theorem claim_C9 (scpSrc : Nat → Except Unit ScpPage)
    (wikiSrc : Nat → Except Unit (List Char))
    (gensS gensW : Nat → List Char → Nat → GenResp)
    (upS upW : List Char → List Char) (budget : Nat)
    (fuel1 iter1 fuel2 iter2 : Nat) :
    ((∃ k, k < fuel2 ∧
        wikiKeepsGoing wikiSrc gensW upW budget (iter2 + k) = false) →
      wikiLoop wikiSrc gensW upW budget iter2 fuel2 ≠ .running) ∧
    ((∃ k, k < fuel1 ∧
        scpKeepsGoing scpSrc gensS upS budget (iter1 + k) = false) →
      scpLoop scpSrc gensS upS budget iter1 fuel1 ≠ .running) :=
  ⟨wikiLoop_stops wikiSrc gensW upW budget fuel2 iter2,
   scpLoop_stops scpSrc gensS upS budget fuel1 iter1⟩

/-- Witness for the amended C9 at concrete oracles: a fatally-rejected
(`ERROR`-marked) summary ends the loops. -/
theorem claim_C9_witness :
    wikiLoop c9Src (fun _ _ _ => .text (pyS "ERROR")) id 1 0 1 ≠ .running ∧
    scpLoop c7ScpSrc (fun _ _ _ => .text (pyS "ERROR")) id 1 0 1 ≠ .running :=
  ⟨(claim_C9 c7ScpSrc c9Src (fun _ _ _ => .text (pyS "ERROR"))
      (fun _ _ _ => .text (pyS "ERROR")) id id 1 1 0 1 0).1
      ⟨0, by omega,
        (by decide : wikiKeepsGoing c9Src
          (fun _ _ _ => GenResp.text (pyS "ERROR")) id 1 0 = false)⟩,
   (claim_C9 c7ScpSrc c9Src (fun _ _ _ => .text (pyS "ERROR"))
      (fun _ _ _ => .text (pyS "ERROR")) id id 1 1 0 1 0).2
      ⟨0, by omega,
        (by decide : scpKeepsGoing c7ScpSrc
          (fun _ _ _ => GenResp.text (pyS "ERROR")) id 1 0 = false)⟩⟩

end GhSummarizer
